import Mathlib

/-!
Verification of the afero virtual-filesystem fork (moorereason/afero).

This file shallowly embeds the Go sources into Lean:

* path normalization (Go path/filepath.Clean on unix, as used by
  memmapfs.normalizePath),
* the in-memory filesystem memmapfs.Fs over a pure association-list
  store (memmapfs/memmapfs.go),
* the read-only filter rofs.ReadOnlyFs (fsutil/util.go, second part),
* the regular-expression filter regexpfs (src/unnamed/part_003),
* the CopyToLayer primitive (internal/copyutil/copyutil.go), modelled
  as a pure function of the outcomes of its sub-operations that also
  records the sequence of layer actions it performs.

Machine integers do not overflow in any of the embedded code paths
(only small flag words and list lengths appear), so Nat is used
throughout.  Go map iteration order is irrelevant to all the claims
below, so the store is an association list with first-match lookup.
-/

namespace Afero

/-- Error kinds distinguished by the repository: os.ErrNotExist and
syscall.ENOENT both satisfy os.IsNotExist and are identified here. -/
inductive ErrKind where
  | notExist
  | exist
  | eperm
  | eio
  deriving DecidableEq, Repr

/-- Go os.PathError: operation name, path, wrapped error kind. -/
structure PathError where
  op : String
  path : String
  err : ErrKind
  deriving DecidableEq, Repr

/-! ### Go path/filepath.Clean (unix), char-list implementation

The output buffer is kept in reverse order; cleanBackGo mirrors the
backtracking loop of the ".." case (pop the last path element and the
separator before it). -/

/-- Backtracking loop of Clean's ".." case: after one unconditional pop,
keep popping while the buffer is longer than dd and the char just popped
is not a separator.  The buffer is reversed (most recent char first);
p is the char popped in the previous step. -/
def cleanBackGo (dd : Nat) : List Char → Char → List Char
  | l, p =>
    if l.length > dd ∧ p ≠ '/' then
      match l with
      | [] => []
      | c :: r => cleanBackGo dd r c
    else l

/-- Entry point of the backtracking: pop the final char unconditionally
(the caller guarantees the buffer is longer than dd). -/
def cleanBack (dd : Nat) : List Char → List Char
  | [] => []
  | c :: r => cleanBackGo dd r c

/-- Main loop of Go filepath.Clean.  rooted tells whether the input was
absolute; out is the output buffer in reverse; dd is Go's dotdot mark.
The first argument is structural-recursion fuel: every iteration of the
Go loop consumes at least one input char, so fuel equal to the input
length makes this the Go loop (clean below passes the full length). -/
def cleanLoop (rooted : Bool) : Nat → List Char → List Char → Nat → List Char
  | _, [], out, _ => out
  | 0, _ :: _, out, _ => out
  | fuel + 1, c :: rest, out, dd =>
    if c = '/' then
      cleanLoop rooted fuel rest out dd
    else if c = '.' ∧ (rest = [] ∨ rest.head? = some '/') then
      cleanLoop rooted fuel rest out dd
    else if c = '.' ∧ rest.head? = some '.' ∧
        (rest.tail = [] ∨ rest.tail.head? = some '/') then
      if out.length > dd then
        cleanLoop rooted fuel rest.tail (cleanBack dd out) dd
      else if rooted = false then
        let out2 := if out.length > 0 then '/' :: out else out
        cleanLoop rooted fuel rest.tail ('.' :: '.' :: out2) (out2.length + 2)
      else
        cleanLoop rooted fuel rest.tail out dd
    else
      -- here c ≠ '/', so the copied element is c followed by the
      -- longest slash-free stretch of rest
      let comp := c :: rest.takeWhile (fun x => x ≠ '/')
      let rest2 := rest.dropWhile (fun x => x ≠ '/')
      let out2 :=
        if (rooted = true ∧ out.length ≠ 1) ∨ (rooted = false ∧ out.length ≠ 0)
        then '/' :: out else out
      cleanLoop rooted fuel rest2 (comp.reverse ++ out2) dd

/-- Go path/filepath.Clean for unix paths. -/
def clean (s : String) : String :=
  match s.data with
  | [] => "."
  | c :: rest =>
    if c = '/' then
      String.mk (cleanLoop true (rest.length + 1) rest ['/'] 1).reverse
    else
      let out := cleanLoop false (rest.length + 1) (c :: rest) [] 0
      if out = [] then "." else String.mk out.reverse

/-- memmapfs FilePathSeparator. -/
def sepStr : String := "/"

/-- Go strings.HasPrefix (argument order: hasPrefixStr pre s tests
whether s starts with pre), on the char-list view of the strings. -/
def hasPrefixStr (pre s : String) : Bool :=
  pre.data.isPrefixOf s.data

/-- memmapfs.normalizePath: Clean, then collapse "." and ".." to the
separator. -/
def normalizePath (path : String) : String :=
  let p := clean path
  if p = "." then sepStr
  else if p = ".." then sepStr
  else p

/-- Go path/filepath.Split: directory part of a path, up to and
including the final separator (empty when there is no separator). -/
def splitDir (p : String) : String :=
  String.mk ((p.data.reverse.dropWhile (fun x => x ≠ '/')).reverse)

/-- Go path/filepath.Dir for unix: Clean of the Split directory part. -/
def dirFn (p : String) : String :=
  clean (splitDir p)

/-! ### MemFs node data

The mem-file implementation (FileData, CreateFile, CreateDir,
AddToMemDir, RemoveFromMemDir, SetMode, SetModTime, ChangeFileName,
FileInfo) is not under src/; only memmapfs/memmapfs.go, which calls it,
is.  The definitions below are therefore modelled from the spec
(sections 3 and 4.B). -/

/-- Go os.ModeDir bit (1 shifted left 31). -/
def ModeDir : Nat := 2147483648

/-- Modelled from the spec: a MemFs node (spec section 3) carries the
absolute normalized name, raw byte content, mode flags including the
directory bit, a modification time, and the child-set of a directory,
keyed on path strings (spec section 9, Directory children). -/
structure FileData where
  name : String
  content : List Nat
  mode : Nat
  modtime : Int
  memDir : List String
  deriving DecidableEq, Repr

/-- Modelled from the spec: a node is a directory iff its mode has the
directory bit set (spec section 3, Invariants). -/
def IsDirFd (fd : FileData) : Bool :=
  (fd.mode &&& ModeDir) != 0

/-- Modelled from the spec: CreateFile allocates a fresh regular-file
node for the given (already normalized) path. -/
def CreateFile (name : String) : FileData :=
  { name := name, content := [], mode := 0, modtime := 0, memDir := [] }

/-- Modelled from the spec: CreateDir allocates a fresh directory node;
the directory bit is part of the node's mode. -/
def CreateDir (name : String) : FileData :=
  { name := name, content := [], mode := ModeDir, modtime := 0, memDir := [] }

/-- Modelled from the spec: insert a child into a parent's child-set,
keyed by the child's path string (idempotent set insertion). -/
def AddToMemDir (parent f : FileData) : FileData :=
  { parent with memDir := f.name :: parent.memDir.filter (fun x => x ≠ f.name) }

/-- Modelled from the spec: remove a child from a parent's child-set. -/
def RemoveFromMemDir (parent f : FileData) : FileData :=
  { parent with memDir := parent.memDir.filter (fun x => x ≠ f.name) }

/-- Modelled from the spec: SetMode replaces the node's mode flags. -/
def SetMode (fd : FileData) (mode : Nat) : FileData :=
  { fd with mode := mode }

/-- Modelled from the spec: SetModTime replaces the modification time. -/
def SetModTime (fd : FileData) (mtime : Int) : FileData :=
  { fd with modtime := mtime }

/-- Modelled from the spec: ChangeFileName rewrites the node's internal
name (used by Rename). -/
def ChangeFileName (fd : FileData) (newname : String) : FileData :=
  { fd with name := newname }

/-! ### The MemFs store

memmapfs.Fs.data is a Go map from normalized path to node; here it is
an association list with first-match lookup.  The root entry always
exists after getData, so a fresh filesystem is freshStore. -/

/-- Store of memmapfs.Fs: normalized path to node. -/
abbrev Store := List (String × FileData)

/-- Map lookup (Go: m.getData()[name]). -/
def lookupS (s : Store) (k : String) : Option FileData :=
  match s with
  | [] => none
  | (k2, v) :: rest => if k2 = k then some v else lookupS rest k

/-- Map deletion (Go: delete(m.getData(), name)). -/
def eraseS : Store → String → Store
  | [], _ => []
  | (k2, v) :: rest, k => if k2 = k then eraseS rest k else (k2, v) :: eraseS rest k

/-- Map assignment (Go: m.getData()[name] = fd). -/
def insertS (s : Store) (k : String) (v : FileData) : Store :=
  (k, v) :: eraseS s k

/-- The store of a fresh filesystem: getData creates the root
directory on first use. -/
def freshStore : Store := [(sepStr, CreateDir sepStr)]

/-- memmapfs.Fs.lockfreeOpen: lookup under the normalized path. -/
def lockfreeOpen (s : Store) (name : String) : Option FileData :=
  lookupS s (normalizePath name)

/-- memmapfs.Fs.findParent: split off the last path element, Clean the
directory part, and open it lock-free.  Returns the store key the
parent was found under together with the parent node (the key names
the map slot that a mutation of the parent updates). -/
def findParent (s : Store) (f : FileData) : Option (String × FileData) :=
  match lockfreeOpen s (clean (splitDir f.name)) with
  | none => none
  | some parent => some (normalizePath (clean (splitDir f.name)), parent)

/-- memmapfs.Fs.registerWithParent with memmapfs.Fs.lockfreeMkdir
inlined at its single call site.  If the parent is missing,
lockfreeMkdir(pdir, 0777) creates it (recursively registering the new
directory), after which the parent is looked up again and the node is
added to its child-set.  Errors of the inlined calls make the
registration return with the store as built so far, exactly as the Go
code silently returns.  The Nat argument is recursion fuel; the Go
recursion depth is bounded by the number of ancestors of f.name, so
any fuel of at least that depth (top-level calls pass name length plus
two) yields the source behavior. -/
def registerWithParent : Store → FileData → Nat → Store
  | s, f, 0 =>
    match findParent s f with
    | some (k, parent) => insertS s k (AddToMemDir parent f)
    | none => s
  | s, f, fuel + 1 =>
    match findParent s f with
    | some (k, parent) => insertS s k (AddToMemDir parent f)
    | none =>
      let pdir := dirFn (clean f.name)
      let n := normalizePath pdir
      match lookupS s n with
      | some x =>
        -- lockfreeMkdir: the path exists; error only if it is a file
        if IsDirFd x then
          -- mkdir succeeded without creating; re-open pdir and add
          insertS s n (AddToMemDir x f)
        else s
      | none =>
        let item := CreateDir n
        let s2 := registerWithParent (insertS s n item) item fuel
        match lookupS s2 (normalizePath pdir) with
        | none => s2
        | some parent => insertS s2 (normalizePath pdir) (AddToMemDir parent f)

/-- Fuel wrapper for registerWithParent: ample fuel for the ancestor
chain of the node's name. -/
def registerTop (s : Store) (f : FileData) : Store :=
  registerWithParent s f (f.name.length + 2)

/-- Result of memmapfs.Fs.unRegisterWithParent: the Go function
panics (log.Panic) when the node has no parent. -/
inductive Unreg where
  | ok (s : Store)
  | notFound
  | panicked
  deriving Repr

/-- memmapfs.Fs.unRegisterWithParent. -/
def unRegisterWithParent (s : Store) (fileName : String) : Unreg :=
  match lockfreeOpen s fileName with
  | none => .notFound
  | some f =>
    match findParent s f with
    | none => .panicked
    | some (k, parent) => .ok (insertS s k (RemoveFromMemDir parent f))

/-! ### MemFs file handles

NewFileHandle / NewReadOnlyFileHandle and the handle operations live in
the mem-file implementation missing from src/; they are modelled from
the spec (section 3, File handle; section 4.B, Handle read/write): a
handle holds a reference to the node, a byte cursor and a read-only
flag, and the read-only flag makes Write fail. -/

/-- Modelled from the spec: a MemFs file handle (node reference, byte
cursor, read-only flag). -/
structure Handle where
  data : FileData
  at_ : Nat
  readOnly : Bool
  deriving DecidableEq, Repr

/-- Modelled from the spec: NewFileHandle returns a writable handle at
cursor zero. -/
def NewFileHandle (fd : FileData) : Handle :=
  { data := fd, at_ := 0, readOnly := false }

/-- Modelled from the spec: NewReadOnlyFileHandle marks the handle so
Write fails. -/
def NewReadOnlyFileHandle (fd : FileData) : Handle :=
  { data := fd, at_ := 0, readOnly := true }

/-- Modelled from the spec: Write at the cursor replaces or extends the
content; on a read-only handle Write fails with an error. -/
def handleWrite (h : Handle) (bs : List Nat) : Except ErrKind Handle :=
  if h.readOnly then .error .eperm
  else
    let c := h.data.content
    let c2 := c.take h.at_ ++ bs ++ c.drop (h.at_ + bs.length)
    .ok { h with data := { h.data with content := c2 }, at_ := h.at_ + bs.length }

/-- Modelled from the spec: Seek to the end positions the cursor at the
content length (the only Seek the embedded OpenFile performs). -/
def handleSeekEnd (h : Handle) : Handle :=
  { h with at_ := h.data.content.length }

/-- Modelled from the spec: Truncate(0) resets the content length to
zero; it fails on a read-only handle. -/
def handleTruncate0 (h : Handle) : Except ErrKind Handle :=
  if h.readOnly then .error .eperm
  else .ok { h with data := { h.data with content := [] } }

/-! ### MemFs public operations (memmapfs/memmapfs.go) -/

/-- memmapfs.Fs.Create: allocate a file node under the normalized name,
insert it, register with the parent, return a writable handle. -/
def fsCreate (s : Store) (name : String) : Handle × Store :=
  let n := normalizePath name
  let file := CreateFile n
  let s1 := insertS s n file
  let s2 := registerTop s1 file
  (NewFileHandle file, s2)

/-- memmapfs.Fs.Chmod: fail NotExist when absent, else SetMode. -/
def fsChmod (s : Store) (name : String) (mode : Nat) :
    Except PathError Unit × Store :=
  let n := normalizePath name
  match lookupS s n with
  | none => (.error ⟨"chmod", n, .notExist⟩, s)
  | some f => (.ok (), insertS s n (SetMode f mode))

/-- memmapfs.Fs.Chtimes: fail NotExist when absent, else SetModTime. -/
def fsChtimes (s : Store) (name : String) (mtime : Int) :
    Except PathError Unit × Store :=
  let n := normalizePath name
  match lookupS s n with
  | none => (.error ⟨"chtimes", n, .notExist⟩, s)
  | some f => (.ok (), insertS s n (SetModTime f mtime))

/-- memmapfs.Fs.Mkdir: fail Exist when the normalized path is present
(file or directory); else create a directory node, register it, and
chmod it to perm with the directory bit forced on (the Chmod result is
discarded by the source). -/
def fsMkdir (s : Store) (name : String) (perm : Nat) :
    Except PathError Unit × Store :=
  let n := normalizePath name
  match lookupS s n with
  | some _ => (.error ⟨"mkdir", n, .exist⟩, s)
  | none =>
    let item := CreateDir n
    let s1 := insertS s n item
    let s2 := registerTop s1 item
    let s3 := (fsChmod s2 name (perm ||| ModeDir)).2
    (.ok (), s3)

/-- memmapfs.Fs.MkdirAll: call Mkdir and convert its Exist error into
success. -/
def fsMkdirAll (s : Store) (path : String) (perm : Nat) :
    Except PathError Unit × Store :=
  match fsMkdir s path perm with
  | (.error e, s') => if e.err = .exist then (.ok (), s') else (.error e, s')
  | (.ok _, s') => (.ok (), s')

/-- memmapfs.Fs.open: lookup the normalized path, NotExist if absent. -/
def fsOpenData (s : Store) (name : String) : Except PathError FileData :=
  let n := normalizePath name
  match lookupS s n with
  | none => .error ⟨"open", n, .notExist⟩
  | some f => .ok f

/-- memmapfs.Fs.Open: a read-only handle on the opened node. -/
def fsOpen (s : Store) (name : String) : Except PathError Handle :=
  match fsOpenData s name with
  | .error e => .error e
  | .ok f => .ok (NewReadOnlyFileHandle f)

/-- Go O_RDONLY (zero). -/
def O_RDONLY : Nat := 0
/-- Go O_WRONLY. -/
def O_WRONLY : Nat := 1
/-- Go O_RDWR. -/
def O_RDWR : Nat := 2
/-- Go O_ACCMODE mask. -/
def O_ACCMODE : Nat := 3
/-- Go O_CREATE (linux O_CREAT). -/
def O_CREATE : Nat := 64
/-- Go O_TRUNC. -/
def O_TRUNC : Nat := 512
/-- Go O_APPEND. -/
def O_APPEND : Nat := 1024

/-- memmapfs.Fs.OpenFile: open writable (creating under O_CREATE when
absent); a handle is made read-only only when the flag word equals
O_RDONLY exactly; O_APPEND seeks to the end; O_TRUNC with write intent
truncates the shared node content (reflected both in the handle and in
the store); a freshly created file is chmodded to perm. -/
def fsOpenFile (s : Store) (name : String) (flag : Nat) (perm : Nat) :
    Except PathError Handle × Store :=
  let n := normalizePath name
  let opened :=
    match fsOpenData s name with
    | .ok f => (Except.ok (NewFileHandle f), s, false)
    | .error e =>
      if flag &&& O_CREATE != 0 then
        let (h, s') := fsCreate s name
        (Except.ok h, s', true)
      else (Except.error e, s, false)
  match opened with
  | (.error e, s', _) => (.error e, s')
  | (.ok h0, s', chmod) =>
    let h1 := if flag = O_RDONLY then NewReadOnlyFileHandle h0.data else h0
    let h2 := if flag &&& O_APPEND != 0 then handleSeekEnd h1 else h1
    if flag &&& O_TRUNC != 0 ∧ flag &&& (O_RDWR ||| O_WRONLY) != 0 then
      match handleTruncate0 h2 with
      | .error e => (.error ⟨"truncate", n, e⟩, s')
      | .ok h3 =>
        let s2 := insertS s' n h3.data
        let s3 := if chmod then (fsChmod s2 name perm).2 else s2
        (.ok h3, s3)
    else
      let s3 := if chmod then (fsChmod s' name perm).2 else s'
      (.ok h2, s3)

/-- memmapfs.Fs.Remove: when present, unregister from the parent and
delete from the store; when absent, NotExist.  none models the
log.Panic inside unRegisterWithParent. -/
def fsRemove (s : Store) (name : String) :
    Option (Except PathError Unit × Store) :=
  let n := normalizePath name
  match lookupS s n with
  | some _ =>
    match unRegisterWithParent s n with
    | .ok s' => some (.ok (), eraseS s' n)
    | .notFound => some (.error ⟨"remove", n, .notExist⟩, s)
    | .panicked => none
  | none => some (.error ⟨"remove", n, .notExist⟩, s)

/-- memmapfs.Fs.RemoveAll: unregister the normalized path from its
parent (error ignored), then delete every store entry whose key has the
normalized path as a plain string prefix (strings.HasPrefix, with no
separator check).  none models the log.Panic inside
unRegisterWithParent. -/
def fsRemoveAll (s : Store) (path : String) :
    Option (Except PathError Unit × Store) :=
  let n := normalizePath path
  match unRegisterWithParent s n with
  | .panicked => none
  | .notFound => some (.ok (), s.filter (fun kv => !(hasPrefixStr n kv.1)))
  | .ok s1 => some (.ok (), s1.filter (fun kv => !(hasPrefixStr n kv.1)))

/-- memmapfs.Fs.Rename: no-op when the normalized names coincide;
NotExist when the old name is absent; otherwise unregister the old
name (error ignored by the source), delete the old key, rewrite the
node name, insert under the new key, and register with the new parent.
none models the panics reachable inside (log.Panic in
unRegisterWithParent, and the nil-pointer dereference were the old key
re-read to fail). -/
def fsRename (s : Store) (oldname newname : String) :
    Option (Except PathError Unit × Store) :=
  let o := normalizePath oldname
  let n := normalizePath newname
  if o = n then some (.ok (), s)
  else
    match lookupS s o with
    | none => some (.error ⟨"rename", o, .notExist⟩, s)
    | some _ =>
      let s1 :=
        match unRegisterWithParent s o with
        | .ok s' => some s'
        | .notFound => some s
        | .panicked => none
      match s1 with
      | none => none
      | some s1 =>
        match lookupS s1 o with
        | none => none
        | some fd =>
          let s2 := eraseS s1 o
          let fd2 := ChangeFileName fd n
          let s3 := insertS s2 n fd2
          some (.ok (), registerTop s3 fd2)

/-! ### Read-only filter rofs.ReadOnlyFs (fsutil/util.go, second unit)

The wrapped source is abstract: the filter consults it only through
Open, OpenFile and Stat, so those are the fields; handles and file
infos are opaque type parameters. -/

/-- The operations of the wrapped source that ReadOnlyFs delegates to. -/
structure RoSource (H I : Type) where
  openF : String → Except ErrKind H
  openFileF : String → Nat → Nat → Except ErrKind H
  statF : String → Except ErrKind I

/-- rofs.ReadOnlyFs.Create: syscall.EPERM. -/
def roCreate (_ : RoSource H I) (_ : String) : Except ErrKind H :=
  .error .eperm

/-- rofs.ReadOnlyFs.Mkdir: syscall.EPERM. -/
def roMkdir (_ : RoSource H I) (_ : String) (_ : Nat) : Except ErrKind Unit :=
  .error .eperm

/-- rofs.ReadOnlyFs.MkdirAll: syscall.EPERM. -/
def roMkdirAll (_ : RoSource H I) (_ : String) (_ : Nat) : Except ErrKind Unit :=
  .error .eperm

/-- rofs.ReadOnlyFs.Remove: syscall.EPERM. -/
def roRemove (_ : RoSource H I) (_ : String) : Except ErrKind Unit :=
  .error .eperm

/-- rofs.ReadOnlyFs.RemoveAll: syscall.EPERM. -/
def roRemoveAll (_ : RoSource H I) (_ : String) : Except ErrKind Unit :=
  .error .eperm

/-- rofs.ReadOnlyFs.Rename: syscall.EPERM. -/
def roRename (_ : RoSource H I) (_ _ : String) : Except ErrKind Unit :=
  .error .eperm

/-- rofs.ReadOnlyFs.Chmod: syscall.EPERM. -/
def roChmod (_ : RoSource H I) (_ : String) (_ : Nat) : Except ErrKind Unit :=
  .error .eperm

/-- rofs.ReadOnlyFs.Chtimes: syscall.EPERM. -/
def roChtimes (_ : RoSource H I) (_ : String) (_ _ : Int) : Except ErrKind Unit :=
  .error .eperm

/-- Flag mask rejected by rofs.ReadOnlyFs.OpenFile:
O_WRONLY, O_RDWR, O_APPEND, O_CREATE, O_TRUNC. -/
def roMask : Nat := O_WRONLY ||| O_RDWR ||| O_APPEND ||| O_CREATE ||| O_TRUNC

/-- rofs.ReadOnlyFs.OpenFile: EPERM when any bit of the mask is set,
else delegate to the source verbatim. -/
def roOpenFile (src : RoSource H I) (name : String) (flag : Nat) (perm : Nat) :
    Except ErrKind H :=
  if flag &&& roMask != 0 then .error .eperm
  else src.openFileF name flag perm

/-- rofs.ReadOnlyFs.Open: delegate to the source verbatim. -/
def roOpen (src : RoSource H I) (name : String) : Except ErrKind H :=
  src.openF name

/-- rofs.ReadOnlyFs.Stat: delegate to the source verbatim. -/
def roStat (src : RoSource H I) (name : String) : Except ErrKind I :=
  src.statF name

/-! ### Regex filter regexpfs (src/unnamed/part_003)

The compiled pattern is embedded as its match function on strings;
the claims always supply a compiled pattern, so the r.re == nil
short-circuit of matchesName never fires and is not modelled.
Go os.FileInfo.Name() returns the base name of the file, hence the
fname field of FInfo holds a base name (the in-repo test
TestFilterReadDir depends on exactly this). -/

/-- Result of os.FileInfo as the filter consumes it: Name() and
IsDir(). -/
structure FInfo where
  fname : String
  isDir : Bool
  deriving DecidableEq, Repr

/-- The operations of the wrapped source that the claims exercise. -/
structure RegexSource (H : Type) where
  statF : String → Except ErrKind FInfo
  openF : String → Except ErrKind H
  removeF : String → Except ErrKind Unit

/-- regexpfs.Fs.matchesName for a compiled pattern: ENOENT unless the
pattern matches the string. -/
def matchesName (re : String → Bool) (name : String) : Except ErrKind Unit :=
  if re name then .ok () else .error .notExist

/-- fsutil.IsDir: Stat and read the directory bit. -/
def fsutilIsDir (src : RegexSource H) (name : String) : Except ErrKind Bool :=
  match src.statF name with
  | .error e => .error e
  | .ok fi => .ok fi.isDir

/-- regexpfs.Fs.dirOrMatches: directories pass; files must match. -/
def dirOrMatches (src : RegexSource H) (re : String → Bool) (name : String) :
    Except ErrKind Unit :=
  match fsutilIsDir src name with
  | .error e => .error e
  | .ok dir => if dir then .ok () else matchesName re name

/-- regexpfs.Fs.Stat: gate on dirOrMatches, then delegate. -/
def rStat (src : RegexSource H) (re : String → Bool) (name : String) :
    Except ErrKind FInfo :=
  match dirOrMatches src re name with
  | .error e => .error e
  | .ok _ => src.statF name

/-- regexpfs.Fs.Remove: gate on dirOrMatches, then delegate. -/
def rRemove (src : RegexSource H) (re : String → Bool) (name : String) :
    Except ErrKind Unit :=
  match dirOrMatches src re name with
  | .error e => .error e
  | .ok _ => src.removeF name

/-- regexpfs.File: wraps whatever the source Open returned (the Go
field f may be a nil interface when the source failed) together with
the pattern. -/
structure RFile (H : Type) where
  f : Option H
  re : String → Bool

/-- regexpfs.Fs.Open: gate as in source (directories pass unfiltered,
files must match), then call source Open and wrap its handle,
returning a nil error unconditionally: the source's Open error is
discarded. -/
def rOpen (src : RegexSource H) (re : String → Bool) (name : String) :
    Except ErrKind (RFile H) :=
  match fsutilIsDir src name with
  | .error e => .error e
  | .ok dir =>
    let gate : Except ErrKind Unit := if dir then .ok () else matchesName re name
    match gate with
    | .error e => .error e
    | .ok _ => .ok { f := (src.openF name).toOption, re := re }

/-- regexpfs.File.Readdir: pass the count to the inner handle, then
keep directories and entries whose FileInfo Name (the base name)
matches the pattern.  The inner handle's Readdir outcome is the
argument. -/
def rfileReaddir (re : String → Bool)
    (inner : Except ErrKind (List FInfo)) : Except ErrKind (List FInfo) :=
  match inner with
  | .error e => .error e
  | .ok l => .ok (l.filter (fun i => i.isDir || re i.fname))

/-! ### MemFs as a regexpfs source (for the concrete regex-filter
scenarios, mirroring the in-repo test TestFilterReadDir). -/

/-- Base name of a path (the file part of Go path/filepath.Split),
as os.FileInfo.Name() reports it. -/
def baseName (p : String) : String :=
  String.mk ((p.data.reverse.takeWhile (fun x => x ≠ '/')).reverse)

/-- Modelled from the spec: the FileInfo of a MemFs node reports the
base name, and the directory bit of the mode. -/
def memFInfo (fd : FileData) : FInfo :=
  { fname := baseName fd.name, isDir := IsDirFd fd }

/-- MemFs Stat as a RegexSource field (Fs.Stat via Fs.Open). -/
def memStatF (s : Store) (name : String) : Except ErrKind FInfo :=
  match lookupS s (normalizePath name) with
  | none => .error .notExist
  | some fd => .ok (memFInfo fd)

/-- MemFs Open as a RegexSource field (the opened node). -/
def memOpenF (s : Store) (name : String) : Except ErrKind FileData :=
  match lookupS s (normalizePath name) with
  | none => .error .notExist
  | some fd => .ok fd

/-- MemFs Remove as a RegexSource field (error kind of fsRemove). -/
def memRemoveF (s : Store) (name : String) : Except ErrKind Unit :=
  match fsRemove s name with
  | some (.ok _, _) => .ok ()
  | some (.error e, _) => .error e.err
  | none => .error .eio

/-- Modelled from the spec: MemFs directory Readdir snapshots the
child-set and serves the children's FileInfos. -/
def memReaddir (s : Store) (name : String) : Except ErrKind (List FInfo) :=
  match lookupS s (normalizePath name) with
  | none => .error .notExist
  | some fd => .ok (fd.memDir.filterMap (fun c => (lookupS s c).map memFInfo))

/-- A MemFs store packaged as a regexpfs source. -/
def memSource (s : Store) : RegexSource FileData :=
  { statF := memStatF s, openF := memOpenF s, removeF := memRemoveF s }

/-! ### CopyToLayer (internal/copyutil/copyutil.go)

CopyToLayer talks to two arbitrary filesystems only through
base.Open, fsutil.Exists, layer.MkdirAll, layer.Create, io.Copy,
bfh.Stat, lfh.Close and layer.Chtimes.  The embedding takes the
outcome of each of those sub-operations as input (any combination can
arise from some pair of filesystems) and mirrors the control flow,
recording the layer-mutating calls it performs in order. -/

/-- A mutating call CopyToLayer performs on the layer. -/
inductive LayerAct where
  | mkdirAllA (path : String)
  | createA (name : String)
  | removeA (name : String)
  | chtimesA (name : String) (mtime : Int)
  deriving DecidableEq, Repr

/-- Outcomes of the sub-operations of CopyToLayer: base.Open,
fsutil.Exists on the destination directory, layer.MkdirAll,
layer.Create, io.Copy (byte count), bfh.Stat (size and mtime),
lfh.Close, layer.Chtimes. -/
structure CopyEnv where
  openErr : Option ErrKind
  existsRes : Except ErrKind Bool
  mkdirErr : Option ErrKind
  createErr : Option ErrKind
  copyRes : Except ErrKind Int
  statRes : Except ErrKind (Int × Int)
  closeErr : Option ErrKind
  chtimesErr : Option ErrKind

/-- CopyToLayer after the destination-directory phase: create the layer
file, stream-copy, validate the byte count against the base size,
close, and copy the base mtime; on a copy, stat/size or close failure
the destination is removed (layer.Remove, its error discarded) before
the error returns. -/
def copyCont (e : CopyEnv) (name : String) (acts0 : List LayerAct) :
    Except ErrKind Unit × List LayerAct :=
  match e.createErr with
  | some err => (.error err, acts0 ++ [.createA name])
  | none =>
    let acts1 := acts0 ++ [.createA name]
    match e.copyRes with
    | .error err => (.error err, acts1 ++ [.removeA name])
    | .ok n =>
      match e.statRes with
      | .error _ => (.error .eio, acts1 ++ [.removeA name])
      | .ok (size, mtime) =>
        if size ≠ n then (.error .eio, acts1 ++ [.removeA name])
        else
          match e.closeErr with
          | some err => (.error err, acts1 ++ [.removeA name])
          | none =>
            match e.chtimesErr with
            | some err => (.error err, acts1 ++ [.chtimesA name mtime])
            | none => (.ok (), acts1 ++ [.chtimesA name mtime])

/-- copyutil.CopyToLayer: open the base file, ensure the destination
directory exists in the layer (MkdirAll when absent), then copyCont. -/
def copyToLayer (e : CopyEnv) (name : String) :
    Except ErrKind Unit × List LayerAct :=
  match e.openErr with
  | some err => (.error err, [])
  | none =>
    match e.existsRes with
    | .error err => (.error err, [])
    | .ok ex =>
      if ex then copyCont e name []
      else
        match e.mkdirErr with
        | some err => (.error err, [.mkdirAllA (dirFn name)])
        | none => copyCont e name [.mkdirAllA (dirFn name)]

/-! ### Store invariants and footprint bookkeeping -/

/-- The spec's parent invariant (section 3): every node other than root
has a parent path that exists, is a directory, and whose child-set
contains the node. -/
def parentOkB (s : Store) : Bool :=
  s.all (fun kv =>
    kv.1 = sepStr ||
    (match lookupS s (dirFn kv.1) with
     | none => false
     | some p => IsDirFd p && p.memDir.contains kv.1))

/-- The store keys registerWithParent may touch for a node name, at the
given fuel: the key the parent is found under, and (when the parent is
missing) the normalized parent directory together with the keys of its
own recursive registration.  A pure function of the name. -/
def ancKeys : Nat → String → List String
  | 0, name => [normalizePath (clean (splitDir name))]
  | fuel + 1, name =>
    let n := normalizePath (dirFn (clean name))
    normalizePath (clean (splitDir name)) :: n :: ancKeys fuel n

/-! ### Concrete fixtures used by witnesses and counterexamples -/

/-- A trivial read-only-filter source. -/
def unitRoSource : RoSource Unit Unit :=
  { openF := fun _ => .ok (), openFileF := fun _ _ _ => .ok (),
    statF := fun _ => .ok () }

/-- A regexpfs source whose Stat succeeds on every path with a plain
file info while Open always fails: legal behavior for a source
filesystem, used to exhibit the discarded Open error. -/
def errOpenSource : RegexSource Unit :=
  { statF := fun _ => .ok { fname := "x", isDir := false },
    openF := fun _ => .error .eio,
    removeF := fun _ => .ok () }

/-- The match function of the compiled pattern ^a: matches exactly the
strings whose first character is a. -/
def reCaretA : String → Bool := fun s => s.data.head? == some 'a'

/-- Store with the sibling directories /foo and /foobar. -/
def storeFooFoobar : Store :=
  (fsMkdir (fsMkdir freshStore "/foo" 493).2 "/foobar" 493).2

/-- Store with the directory /a containing the regular file /a/b. -/
def storeDirAChild : Store :=
  (fsCreate (fsMkdir freshStore "/a" 493).2 "/a/b").2

/-- Store with the single regular file /a. -/
def storeFileA : Store :=
  (fsCreate freshStore "/a").2

/-- Store with the directory /dir containing the regular file
/dir/afile.txt (the TestFilterReadDir layout). -/
def storeRegexDemo : Store :=
  (fsCreate (fsMkdir freshStore "/dir" 511).2 "/dir/afile.txt").2

/-! ### Association-list lemmas -/

theorem lookupS_eraseS (s : Store) (k : String) (k2 : String) :
    lookupS (eraseS s k) k2 = if k = k2 then none else lookupS s k2 := by
  induction s with
  | nil => simp [eraseS, lookupS]
  | cons a rest ih =>
    obtain ⟨ak, av⟩ := a
    by_cases ha : ak = k
    · by_cases hk : k = k2
      · subst hk; subst ha; simp [eraseS, lookupS, ih]
      · have hx : ¬ ak = k2 := by rw [ha]; exact hk
        simp [eraseS, ha, lookupS, hk, ih, hx]
    · by_cases hak2 : ak = k2
      · have hkk2 : ¬ k = k2 := by
          intro hx; exact ha (by rw [hx, hak2])
        have hk2k : ¬ k2 = k := fun hx => hkk2 hx.symm
        subst hak2
        simp [eraseS, hk2k, lookupS, hkk2]
      · simp [eraseS, ha, lookupS, hak2, ih]

theorem lookupS_insertS (s : Store) (k : String) (v : FileData) (k2 : String) :
    lookupS (insertS s k v) k2 = if k = k2 then some v else lookupS s k2 := by
  unfold insertS
  by_cases hk : k = k2
  · simp [lookupS, hk]
  · simp [lookupS, hk, lookupS_eraseS]

/-! ### registerWithParent footprint -/

theorem findParent_key (s : Store) (f : FileData) (a : String) (b : FileData)
    (h : findParent s f = some (a, b)) :
    a = normalizePath (clean (splitDir f.name)) := by
  unfold findParent at h
  cases hlo : lockfreeOpen s (clean (splitDir f.name)) with
  | none => rw [hlo] at h; exact absurd h (by simp)
  | some p => rw [hlo] at h; simp at h; exact h.1.symm

/-- registerWithParent only touches store keys listed in ancKeys. -/
theorem register_lookup_not_mem (fuel : Nat) (s : Store) (f : FileData)
    (k : String) (hk : k ∉ ancKeys fuel f.name) :
    lookupS (registerWithParent s f fuel) k = lookupS s k := by
  induction fuel generalizing s f with
  | zero =>
    simp only [ancKeys, List.mem_singleton] at hk
    unfold registerWithParent
    cases hfp : findParent s f with
    | none => rfl
    | some ab =>
      obtain ⟨a, b⟩ := ab
      have ha := findParent_key s f a b hfp
      rw [lookupS_insertS]
      rw [if_neg (by rw [ha]; exact fun hx => hk hx.symm)]
  | succ fuel ih =>
    simp only [ancKeys, List.mem_cons] at hk
    push_neg at hk
    obtain ⟨hk1, hk2, hk3⟩ := hk
    unfold registerWithParent
    cases hfp : findParent s f with
    | some ab =>
      obtain ⟨a, b⟩ := ab
      have ha := findParent_key s f a b hfp
      rw [lookupS_insertS]
      rw [if_neg (by rw [ha]; exact fun hx => hk1 hx.symm)]
    | none =>
      simp only
      cases hlk : lookupS s (normalizePath (dirFn (clean f.name))) with
      | some x =>
        by_cases hdir : IsDirFd x
        · simp only [hdir, if_pos]
          rw [lookupS_insertS]
          rw [if_neg (fun hx => hk2 hx.symm)]
        · simp only [hdir]
          rfl
      | none =>
        simp only
        have hrec := ih (insertS s (normalizePath (dirFn (clean f.name)))
          (CreateDir (normalizePath (dirFn (clean f.name)))))
          (CreateDir (normalizePath (dirFn (clean f.name)))) hk3
        cases hlk2 : lookupS (registerWithParent
            (insertS s (normalizePath (dirFn (clean f.name)))
              (CreateDir (normalizePath (dirFn (clean f.name)))))
            (CreateDir (normalizePath (dirFn (clean f.name)))) fuel)
            (normalizePath (dirFn (clean f.name))) with
        | none =>
          rw [hrec, lookupS_insertS, if_neg (fun hx => hk2 hx.symm)]
        | some parent =>
          rw [lookupS_insertS, if_neg (fun hx => hk2 hx.symm)]
          rw [hrec, lookupS_insertS, if_neg (fun hx => hk2 hx.symm)]

/-- registerWithParent never deletes a key. -/
theorem register_isSome (fuel : Nat) (s : Store) (f : FileData) (k : String)
    (h : (lookupS s k).isSome) :
    (lookupS (registerWithParent s f fuel) k).isSome := by
  induction fuel generalizing s f with
  | zero =>
    unfold registerWithParent
    cases hfp : findParent s f with
    | none => exact h
    | some ab =>
      obtain ⟨a, b⟩ := ab
      rw [lookupS_insertS]
      by_cases hx : a = k
      · simp [hx]
      · rw [if_neg hx]; exact h
  | succ fuel ih =>
    unfold registerWithParent
    cases hfp : findParent s f with
    | some ab =>
      obtain ⟨a, b⟩ := ab
      rw [lookupS_insertS]
      by_cases hx : a = k
      · simp [hx]
      · rw [if_neg hx]; exact h
    | none =>
      simp only
      cases hlk : lookupS s (normalizePath (dirFn (clean f.name))) with
      | some x =>
        by_cases hdir : IsDirFd x
        · simp only [hdir, if_pos]
          rw [lookupS_insertS]
          by_cases hx : normalizePath (dirFn (clean f.name)) = k
          · simp [hx]
          · rw [if_neg hx]; exact h
        · simp only [hdir]; exact h
      | none =>
        simp only
        have h1 : (lookupS (insertS s (normalizePath (dirFn (clean f.name)))
            (CreateDir (normalizePath (dirFn (clean f.name))))) k).isSome := by
          rw [lookupS_insertS]
          by_cases hx : normalizePath (dirFn (clean f.name)) = k
          · simp [hx]
          · rw [if_neg hx]; exact h
        have h2 := ih _ (CreateDir (normalizePath (dirFn (clean f.name)))) h1
        cases hlk2 : lookupS (registerWithParent
            (insertS s (normalizePath (dirFn (clean f.name)))
              (CreateDir (normalizePath (dirFn (clean f.name)))))
            (CreateDir (normalizePath (dirFn (clean f.name)))) fuel)
            (normalizePath (dirFn (clean f.name))) with
        | none => exact h2
        | some parent =>
          rw [lookupS_insertS]
          by_cases hx : normalizePath (dirFn (clean f.name)) = k
          · simp [hx]
          · rw [if_neg hx]; exact h2

/-! ## Claims -/

/-- C5: at any path whose normalized form is bound to a regular file
(not a directory) in the store, MkdirAll returns success and the store
— in particular the file node — is completely unchanged: Mkdir
reports Exist before mutating anything and MkdirAll converts that
error into success. -/
theorem c5_mkdirAll_existing_file (s : Store) (p : String) (perm : Nat)
    (fd : FileData) (hlk : lookupS s (normalizePath p) = some fd)
    (_hfile : IsDirFd fd = false) :
    fsMkdirAll s p perm = (Except.ok (), s) := by
  unfold fsMkdirAll fsMkdir
  simp [hlk]

/-- Witness for C5 at a concrete store: a fresh filesystem with the
regular file /f created in it. -/
theorem c5_mkdirAll_existing_file_witness :
    lookupS (fsCreate freshStore "/f").2 (normalizePath "/f")
        = some (CreateFile "/f") ∧
    IsDirFd (CreateFile "/f") = false ∧
    fsMkdirAll (fsCreate freshStore "/f").2 "/f" 511
        = (Except.ok (), (fsCreate freshStore "/f").2) :=
  ⟨by rfl, by rfl,
    c5_mkdirAll_existing_file (fsCreate freshStore "/f").2 "/f" 511
      (CreateFile "/f") (by rfl) (by rfl)⟩

/-- C9: Mkdir fails with an Exist PathError whenever any node (file or
directory) is bound to the normalized path, and after a successful
Mkdir a second Mkdir of the same path returns the Exist PathError. -/
theorem c9_mkdir_exist (s : Store) (p : String) (perm : Nat) :
    (∀ fd, lookupS s (normalizePath p) = some fd →
      (fsMkdir s p perm).1 = .error ⟨"mkdir", normalizePath p, .exist⟩) ∧
    (∀ s', fsMkdir s p perm = (.ok (), s') →
      (fsMkdir s' p perm).1 = .error ⟨"mkdir", normalizePath p, .exist⟩) := by
  constructor
  · intro fd hlk
    unfold fsMkdir
    simp only [hlk]
  · intro s' hmk
    unfold fsMkdir at hmk
    cases hlk : lookupS s (normalizePath p) with
    | some fd => simp only [hlk] at hmk; exact absurd (congrArg Prod.fst hmk) (by simp)
    | none =>
      simp only [hlk] at hmk
      have hs' : (fsChmod (registerTop (insertS s (normalizePath p)
          (CreateDir (normalizePath p))) (CreateDir (normalizePath p))) p
          (perm ||| ModeDir)).2 = s' := congrArg Prod.snd hmk
      have h1 : (lookupS (insertS s (normalizePath p)
          (CreateDir (normalizePath p))) (normalizePath p)).isSome := by
        rw [lookupS_insertS]; simp
      have h2 : (lookupS (registerTop (insertS s (normalizePath p)
          (CreateDir (normalizePath p))) (CreateDir (normalizePath p)))
          (normalizePath p)).isSome :=
        register_isSome _ _ _ _ h1
      set s2 := registerTop (insertS s (normalizePath p)
          (CreateDir (normalizePath p))) (CreateDir (normalizePath p)) with hs2
      have h3 : (lookupS s' (normalizePath p)).isSome := by
        rw [← hs']
        unfold fsChmod
        cases hlk2 : lookupS s2 (normalizePath p) with
        | none => rw [hlk2] at h2; exact absurd h2 (by simp)
        | some f2 =>
          simp only [hlk2]
          rw [lookupS_insertS]
          simp
      obtain ⟨fd', hfd'⟩ := Option.isSome_iff_exists.mp h3
      unfold fsMkdir
      simp only [hfd']

/-- Witness for C9 at a concrete input: the fresh store and path /d. -/
theorem c9_mkdir_exist_witness :
    fsMkdir freshStore "/d" 493 = (.ok (), (fsMkdir freshStore "/d" 493).2) ∧
    (fsMkdir (fsMkdir freshStore "/d" 493).2 "/d" 493).1
      = .error ⟨"mkdir", normalizePath "/d", .exist⟩ :=
  ⟨by rfl,
    (c9_mkdir_exist freshStore "/d" 493).2 (fsMkdir freshStore "/d" 493).2
      (by rfl)⟩

/-- C3: the read-only filter rejects Create, Mkdir, MkdirAll, Remove,
RemoveAll, Rename, Chmod, Chtimes with permission-denied, rejects
OpenFile whenever the flag word has a write (O_WRONLY or O_RDWR),
create, truncate or append bit, and otherwise delegates OpenFile, and
always delegates Open and Stat, returning exactly the source value. -/
theorem c3_readonly_filter (H I : Type) (src : RoSource H I)
    (nm o2 n2 : String) (perm flag md : Nat) (a m : Int) :
    roCreate src nm = .error .eperm ∧
    roMkdir src nm md = .error .eperm ∧
    roMkdirAll src nm md = .error .eperm ∧
    roRemove src nm = .error .eperm ∧
    roRemoveAll src nm = .error .eperm ∧
    roRename src o2 n2 = .error .eperm ∧
    roChmod src nm md = .error .eperm ∧
    roChtimes src nm a m = .error .eperm ∧
    (flag &&& roMask ≠ 0 → roOpenFile src nm flag perm = .error .eperm) ∧
    (flag &&& roMask = 0 →
      roOpenFile src nm flag perm = src.openFileF nm flag perm) ∧
    roOpen src nm = src.openF nm ∧
    roStat src nm = src.statF nm := by
  refine ⟨rfl, rfl, rfl, rfl, rfl, rfl, rfl, rfl, ?_, ?_, rfl, rfl⟩
  · intro h
    unfold roOpenFile
    simp [h]
  · intro h
    unfold roOpenFile
    simp [h]

/-- Witness for C3 with a unit source: the flag words 1 (O_WRONLY set)
and 0 (no masked bit) exercise both OpenFile branches. -/
theorem c3_readonly_filter_witness :
    ((1 : Nat) &&& roMask ≠ 0 ∧
      roOpenFile unitRoSource "x" 1 0 = .error .eperm) ∧
    ((0 : Nat) &&& roMask = 0 ∧
      roOpenFile unitRoSource "x" 0 0 = unitRoSource.openFileF "x" 0 0) :=
  ⟨⟨by decide,
    (c3_readonly_filter Unit Unit unitRoSource "x" "o" "n" 0 1 0 0 0).2.2.2.2.2.2.2.2.1
      (by decide)⟩,
   ⟨rfl,
    (c3_readonly_filter Unit Unit unitRoSource "x" "o" "n" 0 0 0 0 0).2.2.2.2.2.2.2.2.2.1
      rfl⟩⟩

/-- C1 (code bug): the claim and the spec require RemoveAll to delete
only the entry at the path and the entries under path + separator, but
memmapfs.Fs.RemoveAll filters with strings.HasPrefix and no separator:
with the sibling directories /foo and /foobar in the store, RemoveAll
on the existing path /foo succeeds and also deletes /foobar, an entry
that is neither /foo nor under /foo/ — and its stale child reference
is even left behind in the root directory's child-set. -/
theorem c1_removeAll_deletes_sibling :
    (hasPrefixStr ("/foo" ++ sepStr) "/foobar" = false) ∧
    ("/foobar" : String) ≠ "/foo" ∧
    (lookupS storeFooFoobar "/foobar").isSome = true ∧
    (fsRemoveAll storeFooFoobar "/foo").map
        (fun r => (r.1, lookupS r.2 "/foobar", lookupS r.2 "/foo",
          (lookupS r.2 sepStr).map FileData.memDir))
      = some (Except.ok (), none, none, some ["/foobar"]) := by
  refine ⟨by rfl, by simp, by rfl, by rfl⟩

/-- C2 (code bug): the spec's parent invariant holds of the store with
directory /a containing file /a/b, but the operation sequence Mkdir /a;
Create /a/b; Remove /a — Remove permits removing a non-empty directory
— leaves /a/b in the store while /a is gone, so /a/b's parent path no
longer exists and the invariant is violated. -/
theorem c2_remove_orphans_child :
    parentOkB storeDirAChild = true ∧
    (fsRemove storeDirAChild "/a").map
        (fun r => (r.1, lookupS r.2 "/a/b", lookupS r.2 "/a", parentOkB r.2))
      = some (Except.ok (), some (CreateFile "/a/b"), none, false) := by
  refine ⟨by rfl, by rfl⟩

/-- C6 counterexample: the flag word O_CREATE (64) has read-only access
mode (flags AND O_ACCMODE = O_RDONLY), yet OpenFile on the existing
file /a returns a writable handle — OpenFile compares the whole flag
word against O_RDONLY — and Write on it succeeds instead of being
rejected. -/
theorem c6_readonly_modifier_writable :
    (64 &&& O_ACCMODE = O_RDONLY) ∧
    ((fsOpenFile storeFileA "/a" 64 438).1.map
        (fun h => (h.readOnly, (handleWrite h [7]).isOk))
      = .ok (false, true)) := by
  refine ⟨by rfl, by rfl⟩

/-- C6 amended: a handle returned by MemFs OpenFile for an existing
path rejects Write only when the flag word is exactly O_RDONLY; when
the read-only access mode is combined with any modifier bit (create,
append, ...), the returned handle is writable and Write succeeds. -/
theorem c6_write_rejected_iff_flag_zero (s : Store) (p : String)
    (perm : Nat) (fd : FileData)
    (hlk : lookupS s (normalizePath p) = some fd) :
    (∃ h, (fsOpenFile s p O_RDONLY perm).1 = .ok h ∧ h.readOnly = true ∧
      ∀ bs, handleWrite h bs = .error .eperm) ∧
    (∀ flag, flag ≠ O_RDONLY → flag &&& O_ACCMODE = O_RDONLY →
      ∃ h, (fsOpenFile s p flag perm).1 = .ok h ∧ h.readOnly = false ∧
        ∀ bs, (handleWrite h bs).isOk = true) := by
  constructor
  · refine ⟨NewReadOnlyFileHandle (NewFileHandle fd).data, ?_, rfl, ?_⟩
    · unfold fsOpenFile fsOpenData
      simp only [hlk]
      rfl
    · intro bs
      unfold handleWrite NewReadOnlyFileHandle
      rfl
  · intro flag hne hacc
    have hwr : flag &&& (O_RDWR ||| O_WRONLY) = 0 := by
      have h3 : O_RDWR ||| O_WRONLY = O_ACCMODE := by rfl
      rw [h3, hacc]
      rfl
    by_cases hap : flag &&& O_APPEND != 0
    · refine ⟨handleSeekEnd (NewFileHandle fd), ?_, rfl, ?_⟩
      · unfold fsOpenFile fsOpenData
        simp only [hlk]
        simp only [if_neg hne, hap, if_true]
        simp [hwr]
      · intro bs
        unfold handleWrite handleSeekEnd NewFileHandle
        rfl
    · refine ⟨NewFileHandle fd, ?_, rfl, ?_⟩
      · unfold fsOpenFile fsOpenData
        simp only [hlk]
        simp only [if_neg hne, hap, if_false]
        simp [hwr, hap]
      · intro bs
        unfold handleWrite NewFileHandle
        rfl

/-- Witness for the amended C6 on the concrete store with file /a:
flag 0 gives a Write-rejecting handle, flag 1088 (O_CREATE plus
O_APPEND, access mode read-only) gives a writable one. -/
theorem c6_write_rejected_iff_flag_zero_witness :
    lookupS storeFileA (normalizePath "/a") = some (CreateFile "/a") ∧
    (1088 : Nat) ≠ O_RDONLY ∧ (1088 : Nat) &&& O_ACCMODE = O_RDONLY ∧
    (∃ h, (fsOpenFile storeFileA "/a" O_RDONLY 438).1 = .ok h ∧
      h.readOnly = true ∧ ∀ bs, handleWrite h bs = .error .eperm) ∧
    (∃ h, (fsOpenFile storeFileA "/a" 1088 438).1 = .ok h ∧
      h.readOnly = false ∧ ∀ bs, (handleWrite h bs).isOk = true) :=
  ⟨by rfl, by decide, by rfl,
    (c6_write_rejected_iff_flag_zero storeFileA "/a" 438 (CreateFile "/a")
      (by rfl)).1,
    (c6_write_rejected_iff_flag_zero storeFileA "/a" 438 (CreateFile "/a")
      (by rfl)).2 1088 (by decide) (by rfl)⟩

/-- C10: whenever the regex filter's gate passes — the source Stat
succeeds and reports a directory, or the path matches the pattern —
regexpfs Open returns a nil error and a wrapped handle whose inner
file is whatever the source Open returned (none when the source
failed); the source's Open error is discarded, never propagated. -/
theorem c10_open_discards_source_error (H : Type) (src : RegexSource H)
    (re : String → Bool) (name : String) (fi : FInfo)
    (hstat : src.statF name = .ok fi)
    (hpass : fi.isDir = true ∨ re name = true) :
    ∃ fh, rOpen src re name = .ok fh ∧ fh.f = (src.openF name).toOption := by
  unfold rOpen fsutilIsDir
  rw [hstat]
  cases hd : fi.isDir with
  | true =>
    simp only [hd]
    exact ⟨_, rfl, rfl⟩
  | false =>
    have hre : re name = true := by
      cases hpass with
      | inl h => rw [h] at hd; exact absurd hd (by simp)
      | inr h => exact h
    simp only [hd, Bool.false_eq_true, if_false, matchesName, hre, if_true]
    exact ⟨_, rfl, rfl⟩

/-- Witness for C10: a source whose Stat succeeds on x (a matching
regular file) while its Open fails with an I/O error; the filter's
Open still returns ok, with an empty inner handle. -/
theorem c10_open_discards_source_error_witness :
    errOpenSource.statF "x" = .ok { fname := "x", isDir := false } ∧
    (fun _ => true : String → Bool) "x" = true ∧
    errOpenSource.openF "x" = .error .eio ∧
    ∃ fh, rOpen errOpenSource (fun _ => true) "x" = .ok fh ∧ fh.f = none :=
  ⟨rfl, rfl, rfl, by
    obtain ⟨fh, h1, h2⟩ := c10_open_discards_source_error Unit errOpenSource
      (fun _ => true) "x" { fname := "x", isDir := false } rfl (Or.inr rfl)
    exact ⟨fh, h1, h2⟩⟩

/-- C4: whenever CopyToLayer has created the destination in the layer
— base Open succeeded, the destination-directory check succeeded with
either outcome (when the parent is absent, layer.MkdirAll runs and
succeeds, the fresh-layer promotion path), and layer Create succeeded
— and then fails with a stream-copy error, a base Stat error or a
size disagreeing with the copied byte count, or a close error on the
destination, the last layer action before the error returns is the
removal of the destination; and when every step succeeds the run ends
by setting the destination's modification time to the base file's
modification time.  The trace prefix is the MkdirAll call exactly when
the parent directory was absent. -/
theorem c4_copyToLayer_cleanup (e : CopyEnv) (name : String) (ex : Bool)
    (hopen : e.openErr = none) (hex : e.existsRes = .ok ex)
    (hmk : ex = false → e.mkdirErr = none)
    (hcreate : e.createErr = none) :
    (∀ err, e.copyRes = .error err →
      copyToLayer e name
        = (.error err, (if ex then [] else [.mkdirAllA (dirFn name)])
            ++ [.createA name, .removeA name])) ∧
    (∀ n, e.copyRes = .ok n → (∀ sz mt, e.statRes = .ok (sz, mt) → sz ≠ n →
      copyToLayer e name
        = (.error .eio, (if ex then [] else [.mkdirAllA (dirFn name)])
            ++ [.createA name, .removeA name]))) ∧
    (∀ n err, e.copyRes = .ok n → e.statRes = .error err →
      copyToLayer e name
        = (.error .eio, (if ex then [] else [.mkdirAllA (dirFn name)])
            ++ [.createA name, .removeA name])) ∧
    (∀ n mt, e.copyRes = .ok n → e.statRes = .ok (n, mt) →
      (∀ err, e.closeErr = some err →
        copyToLayer e name
          = (.error err, (if ex then [] else [.mkdirAllA (dirFn name)])
              ++ [.createA name, .removeA name]))) ∧
    (∀ n mt, e.copyRes = .ok n → e.statRes = .ok (n, mt) →
      e.closeErr = none → e.chtimesErr = none →
      copyToLayer e name
        = (.ok (), (if ex then [] else [.mkdirAllA (dirFn name)])
            ++ [.createA name, .chtimesA name mt])) := by
  refine ⟨?_, ?_, ?_, ?_, ?_⟩
  · intro err hcopy
    cases ex with
    | true =>
      unfold copyToLayer copyCont
      rw [hopen, hex, hcreate, hcopy]
      rfl
    | false =>
      unfold copyToLayer copyCont
      rw [hopen, hex, hmk rfl, hcreate, hcopy]
      rfl
  · intro n hcopy sz mt hstat hne
    cases ex with
    | true =>
      unfold copyToLayer copyCont
      rw [hopen, hex, hcreate, hcopy, hstat]
      simp [hne]
    | false =>
      unfold copyToLayer copyCont
      rw [hopen, hex, hmk rfl, hcreate, hcopy, hstat]
      simp [hne]
  · intro n err hcopy hstat
    cases ex with
    | true =>
      unfold copyToLayer copyCont
      rw [hopen, hex, hcreate, hcopy, hstat]
      rfl
    | false =>
      unfold copyToLayer copyCont
      rw [hopen, hex, hmk rfl, hcreate, hcopy, hstat]
      rfl
  · intro n mt hcopy hstat err hclose
    cases ex with
    | true =>
      unfold copyToLayer copyCont
      rw [hopen, hex, hcreate, hcopy, hstat, hclose]
      simp
    | false =>
      unfold copyToLayer copyCont
      rw [hopen, hex, hmk rfl, hcreate, hcopy, hstat, hclose]
      simp
  · intro n mt hcopy hstat hclose hch
    cases ex with
    | true =>
      unfold copyToLayer copyCont
      rw [hopen, hex, hcreate, hcopy, hstat, hclose, hch]
      simp
    | false =>
      unfold copyToLayer copyCont
      rw [hopen, hex, hmk rfl, hcreate, hcopy, hstat, hclose, hch]
      simp

/-- Witness for C4: three concrete environments — a stream-copy
failure with the destination directory present, a stream-copy failure
on the fresh-layer path where the directory is first created by
MkdirAll, and a fully successful run. -/
theorem c4_copyToLayer_cleanup_witness :
    copyToLayer
      { openErr := none, existsRes := .ok true, mkdirErr := none,
        createErr := none, copyRes := .error .eio, statRes := .ok (0, 5),
        closeErr := none, chtimesErr := none } "/f"
      = (.error .eio, [.createA "/f", .removeA "/f"]) ∧
    copyToLayer
      { openErr := none, existsRes := .ok false, mkdirErr := none,
        createErr := none, copyRes := .error .eio, statRes := .ok (0, 5),
        closeErr := none, chtimesErr := none } "/d/f"
      = (.error .eio, [.mkdirAllA (dirFn "/d/f"), .createA "/d/f",
          .removeA "/d/f"]) ∧
    copyToLayer
      { openErr := none, existsRes := .ok true, mkdirErr := none,
        createErr := none, copyRes := .ok 3, statRes := .ok (3, 5),
        closeErr := none, chtimesErr := none } "/f"
      = (.ok (), [.createA "/f", .chtimesA "/f" 5]) :=
  ⟨(c4_copyToLayer_cleanup
      { openErr := none, existsRes := .ok true, mkdirErr := none,
        createErr := none, copyRes := .error .eio, statRes := .ok (0, 5),
        closeErr := none, chtimesErr := none } "/f" true rfl rfl
      (fun h => absurd h (by decide)) rfl).1 .eio rfl,
   (c4_copyToLayer_cleanup
      { openErr := none, existsRes := .ok false, mkdirErr := none,
        createErr := none, copyRes := .error .eio, statRes := .ok (0, 5),
        closeErr := none, chtimesErr := none } "/d/f" false rfl rfl
      (fun _ => rfl) rfl).1 .eio rfl,
   (c4_copyToLayer_cleanup
      { openErr := none, existsRes := .ok true, mkdirErr := none,
        createErr := none, copyRes := .ok 3, statRes := .ok (3, 5),
        closeErr := none, chtimesErr := none } "/f" true rfl rfl
      (fun h => absurd h (by decide)) rfl).2.2.2.2
      3 5 rfl rfl rfl rfl⟩

/-- C8 counterexample: under the pattern matching strings that start
with the letter a (the test's anchored pattern), the source holds the
regular file /dir/afile.txt whose path string fails the pattern;
Open, Stat and Remove return NotExist as the claim says, but Readdir
on the parent directory's handle does list the entry, because
File.Readdir matches the FileInfo base name afile.txt, not the path —
refuting the claim that such a file is never listed. -/
theorem c8_readdir_lists_nonmatching_path :
    (memSource storeRegexDemo).statF "/dir/afile.txt"
      = .ok { fname := "afile.txt", isDir := false } ∧
    reCaretA "/dir/afile.txt" = false ∧
    rOpen (memSource storeRegexDemo) reCaretA "/dir/afile.txt"
      = .error .notExist ∧
    rStat (memSource storeRegexDemo) reCaretA "/dir/afile.txt"
      = .error .notExist ∧
    rRemove (memSource storeRegexDemo) reCaretA "/dir/afile.txt"
      = .error .notExist ∧
    rfileReaddir reCaretA (memReaddir storeRegexDemo "/dir")
      = .ok [{ fname := "afile.txt", isDir := false }] := by
  refine ⟨by rfl, by rfl, by rfl, by rfl, by rfl, by rfl⟩

/-- C8 amended: for an existing regular file of the source whose path
string fails the pattern, Open, Stat and Remove return NotExist; but
Readdir filters entries by their FileInfo base name, not by path: it
omits exactly the non-directory entries whose base name fails the
pattern (a file whose path fails while its base name matches is still
listed); for directories of the source all these operations delegate
(Open always returns ok once the gate passes). -/
theorem c8_regex_filter_amended (H : Type) (src : RegexSource H)
    (re : String → Bool) (name : String) :
    (∀ fi, src.statF name = .ok fi → fi.isDir = false → re name = false →
      rOpen src re name = .error .notExist ∧
      rStat src re name = .error .notExist ∧
      rRemove src re name = .error .notExist) ∧
    (∀ l, rfileReaddir re (.ok l)
      = .ok (l.filter (fun i => i.isDir || re i.fname))) ∧
    (∀ (l : List FInfo) i, i.isDir = false → re i.fname = false →
      i ∉ l.filter (fun i => i.isDir || re i.fname)) ∧
    (∀ fi, src.statF name = .ok fi → fi.isDir = true →
      rStat src re name = src.statF name ∧
      rRemove src re name = src.removeF name ∧
      (rOpen src re name).isOk = true) := by
  refine ⟨?_, ?_, ?_, ?_⟩
  · intro fi hstat hdir hre
    unfold rOpen rStat rRemove dirOrMatches fsutilIsDir matchesName
    rw [hstat]
    simp [hdir, hre]
  · intro l
    rfl
  · intro l i hdir hre
    simp [List.mem_filter, hdir, hre]
  · intro fi hstat hdir
    unfold rOpen rStat rRemove dirOrMatches fsutilIsDir
    rw [hstat]
    simp [hdir, Except.isOk, Except.toBool]

/-- Witness for the amended C8 on the concrete store: the hidden file
/dir/afile.txt and the always-visible directory /dir. -/
theorem c8_regex_filter_amended_witness :
    ((memSource storeRegexDemo).statF "/dir/afile.txt"
        = .ok { fname := "afile.txt", isDir := false } ∧
      rStat (memSource storeRegexDemo) reCaretA "/dir/afile.txt"
        = .error .notExist) ∧
    ({ fname := "bfile.txt", isDir := false } : FInfo) ∉
      ([{ fname := "bfile.txt", isDir := false }] : List FInfo).filter
        (fun i => i.isDir || reCaretA i.fname) ∧
    ((memSource storeRegexDemo).statF "/dir"
        = .ok { fname := "dir", isDir := true } ∧
      rStat (memSource storeRegexDemo) reCaretA "/dir"
        = (memSource storeRegexDemo).statF "/dir") :=
  ⟨⟨by rfl,
    ((c8_regex_filter_amended FileData (memSource storeRegexDemo) reCaretA
      "/dir/afile.txt").1 { fname := "afile.txt", isDir := false }
      (by rfl) (by rfl) (by rfl)).2.1⟩,
   (c8_regex_filter_amended FileData (memSource storeRegexDemo) reCaretA
      "x").2.2.1 [{ fname := "bfile.txt", isDir := false }]
      { fname := "bfile.txt", isDir := false } (by rfl) (by rfl),
   ⟨by rfl,
    ((c8_regex_filter_amended FileData (memSource storeRegexDemo) reCaretA
      "/dir").2.2.2 { fname := "dir", isDir := true } (by rfl) (by rfl)).1⟩⟩

/-- C7 counterexample: the store holds the directory /a with the
descendant regular file /a/b; /a/b differs from /a after
normalization, and Rename("/a", "/a/b") succeeds — but the store slot
/a/b now holds a directory (the renamed node overwrote it), so the
descendant entry did not remain with content and metadata unchanged. -/
theorem c7_rename_overwrites_descendant :
    (lookupS storeDirAChild "/a").map IsDirFd = some true ∧
    lookupS storeDirAChild "/a/b" = some (CreateFile "/a/b") ∧
    (lookupS storeDirAChild "/a/b").map IsDirFd = some false ∧
    normalizePath "/a/b" ≠ normalizePath "/a" ∧
    (fsRename storeDirAChild "/a" "/a/b").map
        (fun r => (r.1, (lookupS r.2 "/a/b").map IsDirFd))
      = some (Except.ok (), some true) := by
  refine ⟨by rfl, by rfl, by rfl, by decide, by rfl⟩

/-- A string is never extended by a separator into a prefix of
itself. -/
theorem hasPrefixStr_self_sep (x : String) :
    hasPrefixStr (x ++ sepStr) x = false := by
  unfold hasPrefixStr
  cases hb : (x ++ sepStr).data.isPrefixOf x.data with
  | false => rfl
  | true =>
    have hp := List.isPrefixOf_iff_prefix.mp hb
    have hl := hp.length_le
    rw [String.data_append] at hl
    simp at hl
    exact absurd hl (by decide)

/-- C7 amended: for normalized distinct old and new where new does not
lie under old + separator (so the re-registration of the renamed node
cannot collide with the renamed subtree: no key touched while
re-registering — listed by ancKeys — lies under old or equals old or
new), a successful Rename re-keys only the entry at old: the node
reappears under new with just its internal name rewritten, old is
gone, and every store entry whose key lies under old + separator is
exactly as before, content and metadata included. -/
theorem c7_rename_keeps_descendants (s : Store) (old new : String)
    (fd pfd : FileData)
    (hno : normalizePath old = old) (hnn : normalizePath new = new)
    (hne : old ≠ new)
    (hold : lookupS s old = some fd)
    (hname : fd.name = old)
    (hpar : lookupS s (normalizePath (clean (splitDir old))) = some pfd)
    (hpne : normalizePath (clean (splitDir old)) ≠ old)
    (hpdesc : hasPrefixStr (old ++ sepStr)
      (normalizePath (clean (splitDir old))) = false)
    (hnew : hasPrefixStr (old ++ sepStr) new = false)
    (hanc : ∀ k ∈ ancKeys (new.length + 2) new,
      hasPrefixStr (old ++ sepStr) k = false ∧ k ≠ new ∧ k ≠ old) :
    ∃ s', fsRename s old new = some (Except.ok (), s') ∧
      (∀ k, hasPrefixStr (old ++ sepStr) k = true →
        lookupS s' k = lookupS s k) ∧
      lookupS s' new = some (ChangeFileName fd new) ∧
      lookupS s' old = none := by
  have hnamelen : (ChangeFileName fd new).name = new := rfl
  refine ⟨registerWithParent
    (insertS (eraseS (insertS s (normalizePath (clean (splitDir old)))
        (RemoveFromMemDir pfd fd)) old) new (ChangeFileName fd new))
    (ChangeFileName fd new) (new.length + 2), ?_, ?_, ?_, ?_⟩
  · unfold fsRename
    simp only [hno, hnn, if_neg hne, hold]
    unfold unRegisterWithParent lockfreeOpen
    simp only [hno, hold]
    unfold findParent lockfreeOpen
    simp only [hname, hpar]
    have hlk1 : lookupS (insertS s (normalizePath (clean (splitDir old)))
        (RemoveFromMemDir pfd fd)) old = some fd := by
      rw [lookupS_insertS, if_neg hpne, hold]
    simp only [hlk1]
    unfold registerTop
    rw [hnamelen]
  · intro k hk
    have hkold : k ≠ old := by
      intro he
      rw [he, hasPrefixStr_self_sep] at hk
      exact absurd hk (by simp)
    have hkuk : k ≠ normalizePath (clean (splitDir old)) := by
      intro he
      rw [he, hpdesc] at hk
      exact absurd hk (by simp)
    have hknew : k ≠ new := by
      intro he
      rw [he, hnew] at hk
      exact absurd hk (by simp)
    have hkanc : k ∉ ancKeys (new.length + 2) (ChangeFileName fd new).name := by
      rw [hnamelen]
      intro hmem
      have := (hanc k hmem).1
      rw [this] at hk
      exact absurd hk (by simp)
    rw [register_lookup_not_mem _ _ _ _ hkanc]
    rw [lookupS_insertS, if_neg (fun he => hknew he.symm)]
    rw [lookupS_eraseS, if_neg (fun he => hkold he.symm)]
    rw [lookupS_insertS, if_neg (fun he => hkuk he.symm)]
  · have hnanc : new ∉ ancKeys (new.length + 2) (ChangeFileName fd new).name := by
      rw [hnamelen]
      intro hmem
      exact absurd rfl (hanc new hmem).2.1
    rw [register_lookup_not_mem _ _ _ _ hnanc]
    rw [lookupS_insertS, if_pos rfl]
  · have hoanc : old ∉ ancKeys (new.length + 2) (ChangeFileName fd new).name := by
      rw [hnamelen]
      intro hmem
      exact absurd rfl (hanc old hmem).2.2
    rw [register_lookup_not_mem _ _ _ _ hoanc]
    rw [lookupS_insertS, if_neg (fun he => hne he.symm)]
    rw [lookupS_eraseS, if_pos rfl]

/-- Witness for the amended C7 on the concrete store: renaming the
directory /a (with descendant /a/b) to /c keeps the /a/b entry
unchanged, re-keys /a to /c, and removes /a. -/
theorem c7_rename_keeps_descendants_witness :
    hasPrefixStr ("/a" ++ sepStr) "/c" = false ∧
    hasPrefixStr ("/a" ++ sepStr) "/a/b" = true ∧
    ∃ s', fsRename storeDirAChild "/a" "/c" = some (Except.ok (), s') ∧
      (∀ k, hasPrefixStr ("/a" ++ sepStr) k = true →
        lookupS s' k = lookupS storeDirAChild k) ∧
      lookupS s' "/c" = some (ChangeFileName
        { name := "/a", content := [], mode := 2147484141, modtime := 0,
          memDir := ["/a/b"] } "/c") ∧
      lookupS s' "/a" = none :=
  ⟨by rfl, by rfl,
    c7_rename_keeps_descendants storeDirAChild "/a" "/c"
      { name := "/a", content := [], mode := 2147484141, modtime := 0,
        memDir := ["/a/b"] }
      { name := "/", content := [], mode := 2147483648, modtime := 0,
        memDir := ["/a"] }
      (by rfl) (by rfl) (by decide) (by rfl) (by rfl) (by rfl)
      (by decide) (by rfl) (by rfl) (by decide)⟩

end Afero
